import Mathlib

/-!
# ocvm: the Client runtime (src/model/client.cpp)

A shallow embedding of the component registry of the emulator: the per-tick
update loop, the lookups by address and by type, the guest-visible `component`
library and the load/close life cycle.

Conventions of the embedding.

* A C++ `Component*` is a `Component` record carrying `ptr`, the identity of
  the heap object.  Fresh identities are drawn from the counter `heap` kept
  next to the Client fields; identities are never reused.
* `std::string` is `String`; positions and prefixes are taken on `String.data`.
* The Lua stack is a `List Value` whose head is stack index 1.  A Lua C
  function returns a count `n`; the values the guest receives are the top `n`
  entries of the stack (`luaResults`).
* Code that client.cpp calls but that is not part of the embedded sources
  (the Host factory, the Component base class, Config, Value/ValuePack) is
  carried as parameters or small definitions whose doc comment says so.
* The log streams `lout`/`lerr` are not modelled.
-/

namespace Ocvm

/-! ## Data model -/

/-- RunState returned by `Component::update`. -/
inductive RunState
  | Continue
  | Reboot
  | Halt
  deriving DecidableEq, Repr

/-- Modelled from the spec: the tagged dynamic value of value.h, which is not among
the sources.  Only the variants client.cpp builds or inspects are kept; a table is
an ordered mapping, here with the string keys and string values that
`component.list` stores. -/
inductive Value
  | nil
  | boolean (b : Bool)
  | integer (i : Int)
  | string (s : String)
  | table (entries : List (String × String))
  deriving DecidableEq, Repr

/-- Modelled from the spec: `Value::set(key, value)` on a table, an ordered mapping with
one value per key: an existing key keeps its position and takes the new value, a
new key is appended. -/
def tableSet : List (String × String) → String → String → List (String × String)
  | [], k, v => [(k, v)]
  | (k0, v0) :: rest, k, v =>
    if k0 = k then (k0, v) :: rest else (k0, v0) :: tableSet rest k v

/-- Modelled from the spec: reading a key of a table (`Value::get`). -/
def tableGet : List (String × String) → String → Option String
  | [], _ => none
  | (k0, v0) :: rest, k => if k0 = k then some v0 else tableGet rest k

/-- A component object as the Client sees it: its identity and the results of
the accessors `address()`, `type()`, `slot()`; `isComputer` records that the
object's class is `Computer` (components/computer.h). -/
structure Component where
  ptr : Nat
  address : String
  type : String
  slot : Int
  isComputer : Bool
  deriving DecidableEq, Repr

/-- One entry of the `components` section: `get(1)` is the key handed to the
Host factory, the remaining fields are what the component's initialisation reads. -/
structure ConfigEntry where
  key : String
  address : Option String
  slot : Option Int
  deriving DecidableEq, Repr

/-- A section value: `len()` is the length of the list, `contains(i)` holds when the
`i`-th element (1-based) is present, `get(i)` is that element. -/
abbrev SectionData := List (Option ConfigEntry)

/-- Config: the sections in the order `keys()` enumerates them. -/
structure Config where
  sections : List (String × SectionData)
  deriving DecidableEq, Repr

/-- What a component's initialisation extracts from the configuration entry. -/
structure Identity where
  address : String
  type : String
  slot : Int
  deriving DecidableEq, Repr

/-- The fields of `Client` (`_env_path` and `_host` play no part in the embedded
operations; the host is the `Env` parameter), together with the allocation
counter `heap`. -/
structure Client where
  _computer : Option Nat
  _config : Option Config
  _globals : Bool
  _components : List Component
  heap : Nat
  deriving DecidableEq, Repr

/-- The collaborators of `Client::load` that live outside client.cpp.

* `configFile`: the outcome of `Config::load(envPath(), "client")`; `none` when it
  returns false.
* `create`: `Host::create(key)`; `none` is the null pointer, `some b` a new object
  whose class is `Computer` exactly when `b`.
* `init`: what the new object's own initialisation does with the `(this, config)` it
  is called with (client.cpp:107): the Client at the time of the call, the class of
  the object and the entry give the extracted identity, or `none` when it fails.
* `postInit`: the result of `Component::postInit()`. -/
structure Env where
  configFile : Option Config
  create : String → Option Bool
  init : Client → Bool → ConfigEntry → Option Identity
  postInit : Component → Bool

/-- Effects of `close()` outside the Client fields. -/
inductive Event
  | configSaved
  | configDeleted
  | componentDeleted (ptr : Nat)
  | globalsDeleted
  deriving DecidableEq, Repr

namespace Client

/-- The Client right after its constructor. -/
def new : Client :=
  { _computer := none, _config := none, _globals := false, _components := [], heap := 0 }

/-! ## Lookups -/

/-- The search loop of `std::string::find(pat)` from position `pos` on. -/
def findFrom (pat : List Char) : List Char → Nat → Option Nat
  | [], pos => if pat = [] then some pos else none
  | c :: cs, pos =>
    if pat.isPrefixOf (c :: cs) then some pos else findFrom pat cs (pos + 1)

/-- The call `s.find(pat)`: position of the first occurrence, `none` for `npos`. -/
def find (s pat : String) : Option Nat :=
  findFrom pat.data s.data 0

/-- One iteration of the loop of `Client::components`. -/
def componentsStep (filter : String) (exact : Bool) (result : List Component)
    (pc : Component) : List Component :=
  if find pc.type filter = some 0 then
    if !exact || pc.type == filter then result ++ [pc] else result
  else result

/-- The method `Client::components(filter, exact)`. -/
def components (c : Client) (filter : String) (exact : Bool) : List Component :=
  c._components.foldl (componentsStep filter exact) []

/-- The loop of `Client::component` over the remaining components. -/
def componentLoop (address : String) : List Component → Option Component
  | [] => none
  | pc :: rest => if pc.address = address then some pc else componentLoop address rest

/-- The method `Client::component(address)`; `none` is the null pointer. -/
def component (c : Client) (address : String) : Option Component :=
  componentLoop address c._components

/-! ## The tick -/

/-- The loop of `Client::run`: `log` collects, in call order, the components whose
`update()` has been called. -/
def runLoop (update : Component → RunState) :
    List Component → List Component → RunState × List Component
  | [], log => (RunState.Continue, log)
  | pc :: rest, log =>
    let state := update pc
    if state ≠ RunState.Continue then (state, log ++ [pc])
    else runLoop update rest (log ++ [pc])

/-- The method `Client::run()`: the returned state and the components updated. -/
def run (update : Component → RunState) (c : Client) : RunState × List Component :=
  runLoop update c._components []

/-! ## Life cycle -/

/-- The setter `Client::computer(Computer* c)`. -/
def computer (c : Client) (p : Nat) : Client :=
  { c with _computer := some p }

/-- Modelled from the spec: the effect on the Client of the successful initialisation of a
new component; component.cpp and computer.cpp are not among the sources.  A `Computer`
binds itself ("bind it", load step 4) through the setter `Client::computer(Computer*)`,
the only way `_computer` is ever written; any other component leaves the Client as
it is. -/
def initialized (c : Client) (pc : Component) : Client :=
  if pc.isComputer then c.computer pc.ptr else c

/-- Modelled from the spec: the call `pc->initialize(this, component_config)` of the
Component base class; component.cpp is not among the sources.  The object's own
initialisation (`env.init`) extracts the address, the type and the slot, or generates
a fresh address when the entry has none (4.2), and a duplicate component address is
an initialization error (4.3): the call fails when the Client it is given already
holds a component with that address.  Writing a generated address back to the config
is left to `env.init` and changes no field the embedded operations read. -/
def initializeComponent (env : Env) (c : Client) (isComputer : Bool)
    (component_config : ConfigEntry) : Option Identity :=
  match env.init c isComputer component_config with
  | none => none
  | some identity =>
    if (c.component identity.address).isSome then none else some identity

/-- The body of the index loop of `Client::createComponents` over the entries of the
`components` section that are still to be visited.  A hole is skipped; a null
pointer from the factory or a failed initialisation ends the loop with `false`;
otherwise the new component is appended to `_components`. -/
def createEntries (env : Env) : SectionData → Client → Bool × Client
  | [], c => (true, c)
  | none :: rest, c => createEntries env rest c
  | some component_config :: rest, c =>
    let key := component_config.key
    match env.create key with
    | none => (false, c)
    | some isComputer =>
      let c1 := { c with heap := c.heap + 1 }
      match initializeComponent env c1 isComputer component_config with
      | none => (false, c1)
      | some identity =>
        let pc : Component :=
          { ptr := c.heap, address := identity.address, type := identity.type,
            slot := identity.slot, isComputer := isComputer }
        let c2 := c1.initialized pc
        createEntries env rest { c2 with _components := c2._components ++ [pc] }

/-- The loop of `Client::createComponents` over the sections of the config.
`SystemApi::configure` acts on a global outside the Client and leaves it unchanged. -/
def createSections (env : Env) : List (String × SectionData) → Client → Bool × Client
  | [], c => (true, c)
  | (section_name, section_data) :: rest, c =>
    if section_name = "components" then
      match createEntries env section_data c with
      | (false, c1) => (false, c1)
      | (true, c1) => createSections env rest c1
    else if section_name = "system" then
      createSections env rest c
    else
      createSections env rest c

/-- The method `Client::createComponents()`.  It is only called by `load()` once
`_config` is set; the null case stands for that precondition. -/
def createComponents (env : Env) (c : Client) : Bool × Client :=
  match c._config with
  | none => (false, c)
  | some config => createSections env config.sections c

/-- The loop of `Client::postInit` over the remaining components. -/
def postInitLoop (env : Env) : List Component → Bool
  | [] => true
  | pc :: rest => if !env.postInit pc then false else postInitLoop env rest

/-- The method `Client::postInit()`: it walks `components()`, the call with the default
arguments of the declaration (filter `""`, exact `false`). -/
def postInit (env : Env) (c : Client) : Bool :=
  postInitLoop env (c.components "" false)

/-- The method `Client::loadLuaComponentApi()`.  The `stackLog`/`newlib` calls act on the
interpreter of the bound computer and leave the Client fields unchanged. -/
def loadLuaComponentApi (c : Client) : Bool :=
  match c._computer with
  | none => false
  | some _ => true

/-- The method `Client::load()`: the returned flag and the Client afterwards. -/
def load (env : Env) (c : Client) : Bool × Client :=
  if c._config.isSome || c._globals then (false, c)
  else
    let c1 := { c with _config := some { sections := [] }, _globals := true }
    match env.configFile with
    | none => (false, c1)
    | some config =>
      let c2 := { c1 with _config := some config }
      match createComponents env c2 with
      | (false, c3) => (false, c3)
      | (true, c3) =>
        if !loadLuaComponentApi c3 then (false, c3)
        else if !postInit env c3 then (false, c3)
        else (true, c3)

/-- The method `Client::close()`: the Client afterwards and the effects, in order. -/
def close (c : Client) : Client × List Event :=
  let saved : List Event :=
    match c._config with
    | some _ => [Event.configSaved, Event.configDeleted]
    | none => []
  let c1 := { c with _config := none }
  let deleted : List Event := c1._components.map (fun pc => Event.componentDeleted pc.ptr)
  let globals : List Event := if c1._globals then [Event.globalsDeleted] else []
  let c2 := { c1 with _globals := false }
  ({ c2 with _components := [] }, saved ++ deleted ++ globals)

/-- A call of the life cycle made by the owner of the Client. -/
inductive Call
  | load (env : Env)
  | close

/-- The Client after one life-cycle call. -/
def step (c : Client) : Call → Client
  | Call.load env => (c.load env).2
  | Call.close => c.close.1

/-- The Client after a sequence of life-cycle calls on a new Client. -/
def after (calls : List Call) : Client :=
  calls.foldl step Client.new

/-! ## The guest-visible `component` library -/

/-- The structured argument error raised by `Value::checkArg`. -/
structure ArgError where
  index : Nat
  expected : String
  deriving DecidableEq, Repr

/-- Modelled from the spec: `Value::checkArg<string>(lua, index, default?)` of value.h: the
argument at `index` when it is a string; the default, when one is given and the argument
is absent (none or nil, the case `component_list` tests for afterwards); an argument
error otherwise. -/
def checkArgString (lua : List Value) (index : Nat) (dflt : Option String) :
    Except ArgError String :=
  match lua[index - 1]? with
  | some (Value.string s) => Except.ok s
  | some Value.nil | none =>
    match dflt with
    | some d => Except.ok d
    | none => Except.error { index := index, expected := "string" }
  | some _ => Except.error { index := index, expected := "string" }

/-- Modelled from the spec: `Value::checkArg<bool>(lua, index, default?)` of value.h. -/
def checkArgBool (lua : List Value) (index : Nat) (dflt : Option Bool) :
    Except ArgError Bool :=
  match lua[index - 1]? with
  | some (Value.boolean b) => Except.ok b
  | some Value.nil | none =>
    match dflt with
    | some d => Except.ok d
    | none => Except.error { index := index, expected := "boolean" }
  | some _ => Except.error { index := index, expected := "boolean" }

/-- Modelled from the spec: `ValuePack::ret(lua, values...)` pushes the values onto the guest
stack and returns their count. -/
def ret (lua : List Value) (values : List Value) : Nat × List Value :=
  (values.length, lua ++ values)

/-- The values a Lua C function hands back: the top `n` entries of the stack it leaves. -/
def luaResults (r : Nat × List Value) : List Value :=
  r.2.drop (r.2.length - r.1)

/-- One iteration of the loop of `Client::component_list`. -/
def listStep (result : List (String × String)) (pc : Component) : List (String × String) :=
  tableSet result pc.address pc.type

/-- The method `Client::component_list(lua)`. -/
def component_list (c : Client) (lua : List Value) : Except ArgError (Nat × List Value) :=
  match checkArgString lua 1 (some "") with
  | Except.error e => Except.error e
  | Except.ok filter =>
    match checkArgBool lua 2 (some false) with
    | Except.error e => Except.error e
    | Except.ok exact0 =>
      let exact := if lua[0]? = some Value.nil then false else exact0
      let result := (c.components filter exact).foldl listStep []
      Except.ok (ret lua [Value.table result])

/-- The method `Client::component_type(lua)`. -/
def component_type (c : Client) (lua : List Value) : Except ArgError (Nat × List Value) :=
  match checkArgString lua 1 none with
  | Except.error e => Except.error e
  | Except.ok address =>
    match c.component address with
    | none => Except.ok (ret lua [Value.nil, Value.string "no such component"])
    | some pc => Except.ok (ret lua [Value.string pc.type])

/-- The method `Client::component_slot(lua)`. -/
def component_slot (c : Client) (lua : List Value) : Except ArgError (Nat × List Value) :=
  match checkArgString lua 1 none with
  | Except.error e => Except.error e
  | Except.ok address =>
    match c.component address with
    | none => Except.ok (ret lua [Value.nil, Value.string "no such component"])
    | some pc => Except.ok (ret lua [Value.integer pc.slot])

/-- The method `Client::component_doc(lua)`; `doc pc method` is `Component::doc(method)` of
component.cpp, the documentation string of the method table. -/
def component_doc (doc : Component → String → String)
    (c : Client) (lua : List Value) : Except ArgError (Nat × List Value) :=
  match checkArgString lua 1 none with
  | Except.error e => Except.error e
  | Except.ok address =>
    match checkArgString lua 2 none with
    | Except.error e => Except.error e
    | Except.ok methodName =>
      match c.component address with
      | none => Except.ok (ret lua [Value.nil, Value.string "no such component"])
      | some pc => Except.ok (ret lua [Value.string (doc pc methodName)])

/-! ## Specification side -/

/-- The selection the specification gives for `components(filter, exact)`: the type
equals the filter when `exact`, the type starts with the filter otherwise. -/
def selects (filter : String) (exact : Bool) (pc : Component) : Bool :=
  if exact then decide (pc.type = filter) else decide (filter.data <+: pc.type.data)

/-- The values the guest receives from calling a library function on an argument stack. -/
def call (f : List Value → Except ArgError (Nat × List Value)) (lua : List Value) :
    Except ArgError (List Value) :=
  (f lua).map luaResults

/-- The first component, in insertion order, with the given address. -/
def firstWithAddress (c : Client) (address : String) : Option Component :=
  c._components.find? (fun pc => decide (pc.address = address))

/-! ## Sample machines -/

/-- A computer component. -/
def sampleComputer : Component :=
  { ptr := 0, address := "c0", type := "computer", slot := -1, isComputer := true }

/-- An EEPROM component. -/
def sampleEeprom : Component :=
  { ptr := 1, address := "e1", type := "eeprom", slot := 0, isComputer := false }

/-- A screen component. -/
def sampleScreen : Component :=
  { ptr := 2, address := "s2", type := "screen", slot := -1, isComputer := false }

/-- A loaded Client with a computer, an EEPROM and a screen. -/
def sampleClient : Client :=
  { _computer := some 0, _config := some { sections := [] }, _globals := true,
    _components := [sampleComputer, sampleEeprom, sampleScreen], heap := 3 }

/-- A tick in which the EEPROM asks for a halt. -/
def sampleUpdate (pc : Component) : RunState :=
  if pc.type = "eeprom" then RunState.Halt else RunState.Continue

/-- A Host factory that knows four keys; only `computer` yields a `Computer`. -/
def sampleCreate (key : String) : Option Bool :=
  if key = "computer" then some true
  else if key = "eeprom" ∨ key = "screen" ∨ key = "filesystem" then some false
  else none

/-- An initialisation that takes the address and the slot from the entry and the type
from the key, and fails on the key-less entry. -/
def sampleInit (_client : Client) (_isComputer : Bool) (entry : ConfigEntry) :
    Option Identity :=
  if entry.key = "" then none
  else some { address := entry.address.getD "fresh", type := entry.key,
              slot := entry.slot.getD (-1) }

/-- An environment around a given configuration file. -/
def sampleEnv (entries : SectionData) : Env :=
  { configFile := some { sections := [("components", entries), ("system", [])] },
    create := sampleCreate, init := sampleInit, postInit := fun _ => true }

/-- A configuration with two computers. -/
def twoComputerEntries : SectionData :=
  [some { key := "computer", address := some "a", slot := none },
   some { key := "computer", address := some "b", slot := none }]

/-- A configuration with one computer and one EEPROM, with a hole between them. -/
def plainEntries : SectionData :=
  [some { key := "computer", address := some "a", slot := none },
   none,
   some { key := "eeprom", address := some "b", slot := some 0 }]

/-- The EEPROM the configuration `plainEntries` yields. -/
def plainEeprom : Component :=
  { ptr := 1, address := "b", type := "eeprom", slot := 0, isComputer := false }

/-- A configuration in which a computer and a screen carry the same address. -/
def sameAddressEntries : SectionData :=
  [some { key := "computer", address := some "a", slot := none },
   some { key := "screen", address := some "a", slot := none }]

/-- A configuration with an EEPROM and no computer. -/
def eepromOnlyEntries : SectionData :=
  [some { key := "eeprom", address := some "b", slot := some 0 }]

/-- Documentation strings for the sample machine. -/
def sampleDoc (pc : Component) (method : String) : String :=
  pc.type ++ "." ++ method

/-- The component listing scenario: two filesystems and a computer. -/
def listingEntries : SectionData :=
  [some { key := "filesystem", address := some "f1", slot := none },
   some { key := "filesystem", address := some "f2", slot := none },
   some { key := "computer", address := some "c0", slot := none }]

/-! # Properties -/

/-! ## The tick: `run` -/

theorem runLoop_all_continue (update : Component → RunState) :
    ∀ (cs log : List Component), (∀ pc ∈ cs, update pc = RunState.Continue) →
      runLoop update cs log = (RunState.Continue, log ++ cs) := by
  intro cs
  induction cs with
  | nil => intro log _; simp [runLoop]
  | cons pc rest ih =>
    intro log h
    have hpc : update pc = RunState.Continue := h pc (List.mem_cons_self _ _)
    have hrest : ∀ x ∈ rest, update x = RunState.Continue :=
      fun x hx => h x (List.mem_cons_of_mem _ hx)
    simp [runLoop, hpc, ih (log ++ [pc]) hrest]

theorem runLoop_first_stop (update : Component → RunState) :
    ∀ (pre : List Component) (pc : Component) (post log : List Component),
      (∀ x ∈ pre, update x = RunState.Continue) → update pc ≠ RunState.Continue →
      runLoop update (pre ++ pc :: post) log = (update pc, log ++ pre ++ [pc]) := by
  intro pre
  induction pre with
  | nil => intro pc post log _ hpc; simp [runLoop, hpc]
  | cons x rest ih =>
    intro pc post log h hpc
    have hx : update x = RunState.Continue := h x (List.mem_cons_self _ _)
    have hrest : ∀ y ∈ rest, update y = RunState.Continue :=
      fun y hy => h y (List.mem_cons_of_mem _ hy)
    simp [runLoop, hx, ih pc post (log ++ [x]) hrest hpc]

/-- C1: for every component list and every assignment `update` of update results,
`run()` returns the result of the first component, in insertion order, whose update is
not `Continue`; the components updated are exactly those up to and including that
one, in order; and when every update is `Continue` (the empty list included) it
returns `Continue` after updating every component. -/
theorem run_first_non_continue (update : Component → RunState) (c : Client) :
    ((∀ pc ∈ c._components, update pc = RunState.Continue) →
        c.run update = (RunState.Continue, c._components)) ∧
    (∀ (pre : List Component) (pc : Component) (post : List Component),
        c._components = pre ++ pc :: post →
        (∀ x ∈ pre, update x = RunState.Continue) →
        update pc ≠ RunState.Continue →
        c.run update = (update pc, pre ++ [pc])) := by
  constructor
  · intro h
    simpa [run] using runLoop_all_continue update c._components [] h
  · intro pre pc post hsplit hpre hpc
    simpa [run, hsplit] using runLoop_first_stop update pre pc post [] hpre hpc

/-- Witness of C1 on the sample machine: every update `Continue` gives `Continue` after
three updates; with the EEPROM halting, the screen is not updated. -/
theorem run_first_non_continue_witness :
    sampleClient.run (fun _ => RunState.Continue)
        = (RunState.Continue, [sampleComputer, sampleEeprom, sampleScreen]) ∧
    sampleClient.run sampleUpdate = (RunState.Halt, [sampleComputer, sampleEeprom]) :=
  ⟨(run_first_non_continue (fun _ => RunState.Continue) sampleClient).1 (fun _ _ => rfl),
   (run_first_non_continue sampleUpdate sampleClient).2
      [sampleComputer] sampleEeprom [sampleScreen] rfl (by decide) (by decide)⟩

/-! ## Selection by type: `components` -/

theorem findFrom_ge (pat : List Char) :
    ∀ (l : List Char) (pos r : Nat), findFrom pat l pos = some r → pos ≤ r := by
  intro l
  induction l with
  | nil =>
    intro pos r h
    by_cases hp : pat = []
    · simp [findFrom, hp] at h; omega
    · simp [findFrom, hp] at h
  | cons c cs ih =>
    intro pos r h
    by_cases hp : pat.isPrefixOf (c :: cs) = true
    · simp [findFrom, hp] at h; omega
    · simp [findFrom, hp] at h
      have := ih (pos + 1) r h
      omega

theorem find_zero_iff (s pat : String) : find s pat = some 0 ↔ pat.data <+: s.data := by
  unfold find
  cases hs : s.data with
  | nil =>
    by_cases hp : pat.data = []
    · simp [findFrom, hp]
    · simp [findFrom, hp]
  | cons c cs =>
    by_cases hp : pat.data.isPrefixOf (c :: cs) = true
    · simp [findFrom, hp, List.isPrefixOf_iff_prefix.mp hp]
    · have hnot : ¬ pat.data <+: c :: cs := fun h => hp (List.isPrefixOf_iff_prefix.mpr h)
      simp only [findFrom, hp, hnot, iff_false]
      intro h
      have := findFrom_ge pat.data cs 1 0 (by simpa using h)
      omega

theorem componentsStep_eq (filter : String) (exact : Bool) (result : List Component)
    (pc : Component) :
    componentsStep filter exact result pc =
      if selects filter exact pc then result ++ [pc] else result := by
  unfold componentsStep selects
  by_cases hp : filter.data <+: pc.type.data
  · have hf : find pc.type filter = some 0 := (find_zero_iff _ _).mpr hp
    cases exact <;> simp [hf, hp]
  · have hf : ¬ find pc.type filter = some 0 := fun h => hp ((find_zero_iff _ _).mp h)
    have hne : ¬ pc.type = filter := by
      intro h
      apply hp
      rw [h]
    cases exact <;> simp [hf, hp, hne]

theorem foldl_componentsStep (filter : String) (exact : Bool) :
    ∀ (cs acc : List Component),
      cs.foldl (componentsStep filter exact) acc = acc ++ cs.filter (selects filter exact) := by
  intro cs
  induction cs with
  | nil => intro acc; simp
  | cons pc rest ih =>
    intro acc
    rw [List.foldl_cons, ih, componentsStep_eq]
    by_cases h : selects filter exact pc = true
    · simp [h]
    · simp [h]

theorem components_filter (c : Client) (filter : String) (exact : Bool) :
    c.components filter exact = c._components.filter (selects filter exact) := by
  simp [components, foldl_componentsStep]

/-- C3: for every filter string and exact flag, `components(filter, exact)` is the
subsequence of the component list, in insertion order, of exactly the components whose
type has `filter` as a leading substring when `exact` is false, and of exactly those
whose type equals `filter` when `exact` is true. -/
theorem components_selects_in_order (c : Client) (filter : String) :
    c.components filter false
        = c._components.filter (fun pc => decide (filter.data <+: pc.type.data)) ∧
    c.components filter true
        = c._components.filter (fun pc => decide (pc.type = filter)) ∧
    ∀ exact : Bool, List.Sublist (c.components filter exact) c._components := by
  refine ⟨?_, ?_, ?_⟩
  · rw [components_filter]; rfl
  · rw [components_filter]; rfl
  · intro exact
    rw [components_filter]
    exact List.filter_sublist _

/-! ## Lookup by address: `component` -/

theorem componentLoop_eq_find (address : String) :
    ∀ cs : List Component,
      componentLoop address cs = cs.find? (fun pc => decide (pc.address = address)) := by
  intro cs
  induction cs with
  | nil => rfl
  | cons pc rest ih =>
    by_cases h : pc.address = address
    · simp [componentLoop, h]
    · simp [componentLoop, h, ih]

theorem component_eq_first (c : Client) (address : String) :
    c.component address = c.firstWithAddress address := by
  simp [component, firstWithAddress, componentLoop_eq_find]

theorem component_none_iff (c : Client) (address : String) :
    c.component address = none ↔ ∀ pc ∈ c._components, pc.address ≠ address := by
  simp [component_eq_first, firstWithAddress, List.find?_eq_none]

theorem componentLoop_nodup :
    ∀ (cs : List Component) (pc : Component), pc ∈ cs →
      (cs.map Component.address).Nodup → componentLoop pc.address cs = some pc := by
  intro cs
  induction cs with
  | nil => intro pc h; cases h
  | cons x rest ih =>
    intro pc hmem hnd
    rw [List.map_cons, List.nodup_cons] at hnd
    rcases List.mem_cons.mp hmem with h | h
    · simp [componentLoop, h]
    · have hx : x.address ≠ pc.address := by
        intro heq
        exact hnd.1 (heq ▸ List.mem_map_of_mem Component.address h)
      simp [componentLoop, hx, ih pc h hnd.2]

/-! ## Distinct addresses in the Clients the life cycle builds -/

theorem initializeComponent_fresh (env : Env) (c : Client) (isComputer : Bool)
    (entry : ConfigEntry) (identity : Identity)
    (h : initializeComponent env c isComputer entry = some identity) :
    ∀ pc ∈ c._components, pc.address ≠ identity.address := by
  unfold initializeComponent at h
  cases hinit : env.init c isComputer entry with
  | none => simp [hinit] at h
  | some found =>
    simp only [hinit] at h
    by_cases hdup : (c.component found.address).isSome = true
    · simp [hdup] at h
    · simp only [hdup, if_false, Option.some.injEq, Bool.false_eq_true] at h
      subst h
      apply (component_none_iff c _).mp
      simpa using hdup

theorem createEntries_nodup (env : Env) :
    ∀ (data : SectionData) (c : Client), (c._components.map Component.address).Nodup →
      ((createEntries env data c).2._components.map Component.address).Nodup := by
  intro data
  induction data with
  | nil => intro c h; simpa [createEntries] using h
  | cons x rest ih =>
    intro c h
    cases x with
    | none => simpa [createEntries] using ih c h
    | some e =>
      cases hcr : env.create e.key with
      | none => simpa [createEntries, hcr] using h
      | some b =>
        cases hin : initializeComponent env { c with heap := c.heap + 1 } b e with
        | none => simpa [createEntries, hcr, hin] using h
        | some identity =>
          have hfresh := initializeComponent_fresh env _ b e identity hin
          simp only [createEntries, hcr, hin]
          apply ih
          have hnot : identity.address ∉ c._components.map Component.address := by
            intro hmem
            obtain ⟨pc, hpc, heq⟩ := List.mem_map.mp hmem
            exact hfresh pc hpc heq
          cases b <;>
            simp [initialized, computer, List.nodup_append, h, hnot]

theorem createSections_nodup (env : Env) :
    ∀ (sections : List (String × SectionData)) (c : Client),
      (c._components.map Component.address).Nodup →
      ((createSections env sections c).2._components.map Component.address).Nodup := by
  intro sections
  induction sections with
  | nil => intro c h; simpa [createSections] using h
  | cons x rest ih =>
    intro c h
    obtain ⟨section_name, section_data⟩ := x
    by_cases hname : section_name = "components"
    · have hent := createEntries_nodup env section_data c h
      cases hres : createEntries env section_data c with
      | mk ok c1 =>
        rw [hres] at hent
        cases ok with
        | false => simpa [createSections, hname, hres] using hent
        | true => simpa [createSections, hname, hres] using ih c1 hent
    · by_cases hsys : section_name = "system"
      · simpa [createSections, hname, hsys] using ih c h
      · simpa [createSections, hname, hsys] using ih c h

theorem load_nodup (env : Env) (c : Client)
    (h : (c._components.map Component.address).Nodup) :
    ((c.load env).2._components.map Component.address).Nodup := by
  unfold load
  by_cases hguard : (c._config.isSome || c._globals) = true
  · simpa [hguard] using h
  · simp only [hguard, if_false, Bool.false_eq_true]
    cases hfile : env.configFile with
    | none => simpa using h
    | some config =>
      have hcr := createSections_nodup env config.sections
        { c with _config := some config, _globals := true } h
      simp only [createComponents]
      cases hres : createSections env config.sections
          { c with _config := some config, _globals := true } with
      | mk ok c3 =>
        rw [hres] at hcr
        cases ok with
        | false => simpa using hcr
        | true =>
          by_cases h1 : loadLuaComponentApi c3 = true
          · by_cases h2 : postInit env c3 = true
            · simpa [h1, h2] using hcr
            · simpa [h1, h2] using hcr
          · simpa [h1] using hcr

theorem step_nodup (c : Client) (call : Call)
    (h : (c._components.map Component.address).Nodup) :
    ((c.step call)._components.map Component.address).Nodup := by
  cases call with
  | load env => exact load_nodup env c h
  | close => simp [step, close]

theorem foldl_step_nodup :
    ∀ (calls : List Call) (c : Client), (c._components.map Component.address).Nodup →
      ((calls.foldl step c)._components.map Component.address).Nodup := by
  intro calls
  induction calls with
  | nil => intro c h; simpa using h
  | cons call rest ih => intro c h; exact ih _ (step_nodup c call h)

theorem after_nodup (calls : List Call) :
    ((after calls)._components.map Component.address).Nodup :=
  foldl_step_nodup calls Client.new (by simp [Client.new])

/-- C2: for every component `pc` of a Client on which `load()` returned true, the Client
having been brought there by any sequence of `load()` and `close()` calls,
`component(pc.address)` returns `pc` itself, and no two components of the Client's
list have the same address. -/
theorem component_of_loaded (calls : List Call) (env : Env)
    (_hload : ((after calls).load env).1 = true) :
    (∀ pc ∈ ((after calls).load env).2._components,
      ((after calls).load env).2.component pc.address = some pc) ∧
    (((after calls).load env).2._components.map Component.address).Nodup ∧
    (∀ pc ∈ ((after calls).load env).2._components,
      ∀ other ∈ ((after calls).load env).2._components,
        pc.address = other.address → pc = other) := by
  have hnd := load_nodup env (after calls) (after_nodup calls)
  exact ⟨fun pc hmem => componentLoop_nodup _ pc hmem hnd, hnd,
    fun pc hpc other hother heq => List.inj_on_of_nodup_map hnd hpc hother heq⟩

/-- Witness of C2 on the configuration with a computer and an EEPROM, loaded into a new
Client: the address of the EEPROM finds the EEPROM. -/
theorem component_of_loaded_witness :
    ((after []).load (sampleEnv plainEntries)).1 = true ∧
    ((after []).load (sampleEnv plainEntries)).2.component "b" = some plainEeprom :=
  ⟨by decide,
   (component_of_loaded [] (sampleEnv plainEntries) (by decide)).1 plainEeprom (by decide)⟩

/-- The configuration that gives a computer and a screen the same address does not
load: the initialisation of the screen is the duplicate-address error. -/
theorem load_rejects_same_address :
    (Client.new.load (sampleEnv sameAddressEntries)).1 = false := by
  decide

/-! ## The library functions `type`, `slot`, `doc` and `invoke` -/

theorem luaResults_ret (lua values : List Value) : luaResults (ret lua values) = values := by
  simp [luaResults, ret]

theorem call_component_type (c : Client) (address : String) (rest : List Value) :
    call (component_type c) (Value.string address :: rest) =
      match c.firstWithAddress address with
      | none => Except.ok [Value.nil, Value.string "no such component"]
      | some pc => Except.ok [Value.string pc.type] := by
  unfold call component_type
  simp only [checkArgString, List.getElem?_cons_zero, Nat.sub_self, component_eq_first]
  cases c.firstWithAddress address <;> simp [Except.map, luaResults_ret]

theorem call_component_slot (c : Client) (address : String) (rest : List Value) :
    call (component_slot c) (Value.string address :: rest) =
      match c.firstWithAddress address with
      | none => Except.ok [Value.nil, Value.string "no such component"]
      | some pc => Except.ok [Value.integer pc.slot] := by
  unfold call component_slot
  simp only [checkArgString, List.getElem?_cons_zero, Nat.sub_self, component_eq_first]
  cases c.firstWithAddress address <;> simp [Except.map, luaResults_ret]

theorem call_component_doc (doc : Component → String → String) (c : Client)
    (address method : String) (rest : List Value) :
    call (component_doc doc c) (Value.string address :: Value.string method :: rest) =
      match c.firstWithAddress address with
      | none => Except.ok [Value.nil, Value.string "no such component"]
      | some pc => Except.ok [Value.string (doc pc method)] := by
  unfold call component_doc
  simp only [checkArgString, List.getElem?_cons_zero, Nat.sub_self, component_eq_first]
  cases c.firstWithAddress address <;> simp [Except.map, luaResults_ret]

theorem firstWithAddress_none_iff (c : Client) (address : String) :
    c.firstWithAddress address = none ↔ ∀ pc ∈ c._components, pc.address ≠ address := by
  simp [firstWithAddress, List.find?_eq_none]

/-- C6: for every address, `component.type(address)`, `component.slot(address)` and
`component.doc(address, method)` each return `(nil, "no such component")` if and only
if no component of the Client has that address; otherwise they return the type, the
slot and the method documentation of the first component, in insertion order, with
that address. -/
theorem type_slot_doc_by_address (doc : Component → String → String) (c : Client)
    (address method : String) (rest : List Value) :
    (call (component_type c) (Value.string address :: rest)
        = Except.ok [Value.nil, Value.string "no such component"]
      ↔ ∀ pc ∈ c._components, pc.address ≠ address) ∧
    (call (component_slot c) (Value.string address :: rest)
        = Except.ok [Value.nil, Value.string "no such component"]
      ↔ ∀ pc ∈ c._components, pc.address ≠ address) ∧
    (call (component_doc doc c) (Value.string address :: Value.string method :: rest)
        = Except.ok [Value.nil, Value.string "no such component"]
      ↔ ∀ pc ∈ c._components, pc.address ≠ address) ∧
    (∀ pc, c.firstWithAddress address = some pc →
      call (component_type c) (Value.string address :: rest)
          = Except.ok [Value.string pc.type] ∧
      call (component_slot c) (Value.string address :: rest)
          = Except.ok [Value.integer pc.slot] ∧
      call (component_doc doc c) (Value.string address :: Value.string method :: rest)
          = Except.ok [Value.string (doc pc method)]) := by
  rw [call_component_type, call_component_slot, call_component_doc,
    ← firstWithAddress_none_iff]
  refine ⟨?_, ?_, ?_, ?_⟩
  · cases c.firstWithAddress address <;> simp
  · cases c.firstWithAddress address <;> simp
  · cases c.firstWithAddress address <;> simp
  · intro pc h
    simp [h]

/-- Witness of C6 on the sample machine, at the address of the EEPROM. -/
theorem type_slot_doc_by_address_witness :
    call (component_type sampleClient) [Value.string "e1"]
        = Except.ok [Value.string "eeprom"] ∧
    call (component_slot sampleClient) [Value.string "e1"]
        = Except.ok [Value.integer 0] ∧
    call (component_doc sampleDoc sampleClient) [Value.string "e1", Value.string "get"]
        = Except.ok [Value.string "eeprom.get"] :=
  (type_slot_doc_by_address sampleDoc sampleClient "e1" "get" []).2.2.2 sampleEeprom
    (by decide)

/-- C7: `close()` is idempotent.  For every client state, after `close()` the config is
absent, the globals object is absent and the component list is empty; a second
`close()` leaves the client state unchanged and has no effect at all: it neither saves
the config nor destroys any component again. -/
theorem close_idempotent (c : Client) :
    c.close.1._config = none ∧ c.close.1._globals = false ∧ c.close.1._components = [] ∧
    c.close.1.close = (c.close.1, []) := by
  simp [close]

/-! ## The library function `list` -/

theorem tableSet_fresh (k v : String) :
    ∀ t : List (String × String), k ∉ t.map Prod.fst → tableSet t k v = t ++ [(k, v)] := by
  intro t
  induction t with
  | nil => intro _; rfl
  | cons x rest ih =>
    obtain ⟨k0, v0⟩ := x
    intro h
    simp only [List.map_cons, List.mem_cons, not_or] at h
    have h0 : ¬ k0 = k := fun e => h.1 e.symm
    simp [tableSet, h0, ih h.2]

theorem foldl_listStep_nodup :
    ∀ (cs : List Component) (acc : List (String × String)),
      (acc.map Prod.fst ++ cs.map Component.address).Nodup →
      cs.foldl listStep acc = acc ++ cs.map (fun pc => (pc.address, pc.type)) := by
  intro cs
  induction cs with
  | nil => intro acc _; simp
  | cons x rest ih =>
    intro acc hnd
    have hfresh : x.address ∉ acc.map Prod.fst := by
      intro hmem
      have := (List.nodup_append.mp hnd).2.2
      exact this hmem (by simp)
    rw [List.foldl_cons, listStep, tableSet_fresh _ _ _ hfresh]
    have hnd2 : ((acc ++ [(x.address, x.type)]).map Prod.fst
        ++ rest.map Component.address).Nodup := by
      simpa using hnd
    rw [ih _ hnd2]
    simp

theorem components_default (c : Client) : c.components "" false = c._components := by
  rw [components_filter]
  apply List.filter_eq_self.mpr
  intro pc _
  simp [selects]

theorem call_component_list (c : Client) (filter : String) (exact : Bool)
    (rest : List Value) :
    call (component_list c) (Value.string filter :: Value.boolean exact :: rest) =
      Except.ok [Value.table ((c.components filter exact).foldl listStep [])] := by
  simp [call, component_list, checkArgString, checkArgBool, Except.map, luaResults_ret]

theorem call_component_list_nil (c : Client) (exact : Bool) (rest : List Value) :
    call (component_list c) (Value.nil :: Value.boolean exact :: rest) =
      Except.ok [Value.table ((c.components "" false).foldl listStep [])] := by
  simp [call, component_list, checkArgString, checkArgBool, Except.map, luaResults_ret]

theorem tableGet_map_nodup :
    ∀ (cs : List Component), (cs.map Component.address).Nodup → ∀ (a t : String),
      (tableGet (cs.map (fun pc => (pc.address, pc.type))) a = some t ↔
        ∃ pc ∈ cs, pc.address = a ∧ pc.type = t) := by
  intro cs
  induction cs with
  | nil => intro _ a t; simp [tableGet]
  | cons x rest ih =>
    intro hnd a t
    rw [List.map_cons, List.nodup_cons] at hnd
    by_cases hx : x.address = a
    · have hnone : ¬ ∃ pc ∈ rest, pc.address = a ∧ pc.type = t := by
        rintro ⟨pc, hpc, hpa, _⟩
        apply hnd.1
        rw [hx, ← hpa]
        exact List.mem_map_of_mem Component.address hpc
      simp only [List.map_cons, tableGet, hx, if_true, Option.some.injEq, List.mem_cons,
        exists_eq_or_imp, true_and]
      constructor
      · intro h; exact Or.inl h
      · rintro (h | h)
        · exact h
        · exact absurd h hnone
    · simp only [List.map_cons, tableGet, hx, if_false, ih hnd.2 a t, List.mem_cons,
        exists_eq_or_imp, false_and, false_or]

theorem components_nodup (c : Client) (filter : String) (exact : Bool)
    (h : (c._components.map Component.address).Nodup) :
    ((c.components filter exact).map Component.address).Nodup := by
  rw [components_filter]
  exact List.Nodup.sublist ((List.filter_sublist _).map Component.address) h

theorem list_table_of_nodup (c : Client) (filter : String) (exact : Bool)
    (h : (c._components.map Component.address).Nodup) :
    (c.components filter exact).foldl listStep []
      = (c.components filter exact).map (fun pc => (pc.address, pc.type)) := by
  simpa using foldl_listStep_nodup (c.components filter exact) []
    (by simpa using components_nodup c filter exact h)

/-- C5: on every Client that `load()` and `close()` calls build, `component.list(filter?,
exact?)` returns one table whose entries are exactly address -> type for the
components selected by `components(filter, exact)`, in their order; the filter
defaults to `""` and exact to `false`; and when the filter argument is nil the result
is that of `list("", false)`, whatever exact argument (a boolean, nil, or none) was
passed, so that `list(nil, true)` lists every component. -/
theorem list_table (calls : List Call) (filter : String) (exact : Bool)
    (rest : List Value) :
    (call (component_list (after calls)) (Value.string filter :: Value.boolean exact :: rest)
        = Except.ok [Value.table
            (((after calls).components filter exact).map (fun pc => (pc.address, pc.type)))] ∧
      ∀ a t : String,
        (tableGet (((after calls).components filter exact).map
            (fun pc => (pc.address, pc.type))) a = some t ↔
          ∃ pc ∈ (after calls).components filter exact, pc.address = a ∧ pc.type = t)) ∧
    call (component_list (after calls)) []
      = call (component_list (after calls)) [Value.string "", Value.boolean false] ∧
    call (component_list (after calls)) [Value.string filter]
      = call (component_list (after calls)) [Value.string filter, Value.boolean false] ∧
    call (component_list (after calls)) (Value.nil :: Value.boolean exact :: rest)
      = call (component_list (after calls)) [Value.string "", Value.boolean false] ∧
    call (component_list (after calls)) (Value.nil :: Value.nil :: rest)
      = call (component_list (after calls)) [Value.string "", Value.boolean false] ∧
    call (component_list (after calls)) [Value.nil]
      = call (component_list (after calls)) [Value.string "", Value.boolean false] ∧
    call (component_list (after calls)) [Value.nil, Value.boolean true]
      = Except.ok [Value.table
          ((after calls)._components.map (fun pc => (pc.address, pc.type)))] := by
  have hnd := after_nodup calls
  refine ⟨⟨?_, ?_⟩, ?_, ?_, ?_, ?_, ?_, ?_⟩
  · rw [call_component_list, list_table_of_nodup _ _ _ hnd]
  · exact tableGet_map_nodup _ (components_nodup _ filter exact hnd)
  · rw [call_component_list]
    simp [call, component_list, checkArgString, checkArgBool, Except.map, luaResults_ret]
  · rw [call_component_list]
    simp [call, component_list, checkArgString, checkArgBool, Except.map, luaResults_ret]
  · rw [call_component_list, call_component_list_nil]
  · rw [call_component_list]
    simp [call, component_list, checkArgString, checkArgBool, Except.map, luaResults_ret]
  · rw [call_component_list]
    simp [call, component_list, checkArgString, checkArgBool, Except.map, luaResults_ret]
  · rw [call_component_list_nil, list_table_of_nodup _ _ _ hnd, components_default]

/-- The component listing scenario: with two filesystems and a computer loaded,
`component.list("file", false)` is the table of the two filesystem addresses. -/
theorem list_scenario :
    call (component_list (after [Call.load (sampleEnv listingEntries)]))
        [Value.string "file", Value.boolean false]
      = Except.ok [Value.table [("f1", "filesystem"), ("f2", "filesystem")]] := by
  rfl

/-! ## The computer pointer -/

/-- C9, the code at the failing input: the configuration with two computer entries
yields two computer components on a new Client, and `load()` returns true, with the
second computer bound. -/
theorem load_accepts_two_computers :
    (Client.new.load (sampleEnv twoComputerEntries)).1 = true ∧
    ((Client.new.load (sampleEnv twoComputerEntries)).2._components.filter
        (fun pc => pc.isComputer)).length = 2 ∧
    (Client.new.load (sampleEnv twoComputerEntries)).2._computer = some 1 := by
  decide

/-- C10, the code at the failing input: `close()` never writes the computer pointer, so
after a successful `load()` of the configuration with one computer followed by
`close()`, the component list is empty and the computer pointer still holds the
identity of the destroyed computer. -/
theorem close_keeps_computer_pointer :
    (∀ c : Client, c.close.1._computer = c._computer) ∧
    (Client.new.load (sampleEnv plainEntries)).1 = true ∧
    (after [Call.load (sampleEnv plainEntries)])._computer = some 0 ∧
    (after [Call.load (sampleEnv plainEntries), Call.close])._components = [] ∧
    (after [Call.load (sampleEnv plainEntries), Call.close])._computer = some 0 := by
  refine ⟨fun c => rfl, ?_, ?_, ?_, ?_⟩ <;> decide

/-- C8, the code at the failing input: the Client left by a successful `load()` followed
by `close()` has no config and no globals, yet its `load()` of the configuration with
an EEPROM and no computer returns true, with no Computer among its components: the
pointer `close()` left behind passes the test of `loadLuaComponentApi`.  On a new
Client the same configuration gives false. -/
theorem load_after_close_without_computer :
    (after [Call.load (sampleEnv plainEntries), Call.close])._config = none ∧
    (after [Call.load (sampleEnv plainEntries), Call.close])._globals = false ∧
    ((after [Call.load (sampleEnv plainEntries), Call.close]).load
        (sampleEnv eepromOnlyEntries)).1 = true ∧
    (∀ pc ∈ ((after [Call.load (sampleEnv plainEntries), Call.close]).load
        (sampleEnv eepromOnlyEntries)).2._components, pc.isComputer = false) ∧
    (Client.new.load (sampleEnv eepromOnlyEntries)).1 = false := by
  refine ⟨?_, ?_, ?_, ?_, ?_⟩ <;> decide

end Client

end Ocvm
